import Mathlib

/-!
Verification of the asynchronous job-orchestration core of the financial
document analyzer.

The embedding below follows the repository source:
  * `database.py`   — the `AnalysisRequest` and `AnalysisResult` tables
    (requests keyed by `request_id`, results keyed by `request_id` with a
    UNIQUE constraint).
  * `main_async.py` — `analyze_document_async` (submission), `get_analysis_status`
    and `get_analysis_result` (read-only projections).
  * `worker.py`     — `process_financial_document` (the background worker:
    claim phase, crew execution, completion/failure phase).
  * `main.py`       — `run_financial_crew_with_retry` (synchronous retry loop)
    and the query-cleaning logic shared with `main_async.py`.
  * `tools.py`      — `read_financial_document` (total PDF text extraction).

Timestamps are modelled as abstract `Nat` clock values, ids as `Nat`
(standing for the uuid4 strings), and each `db.commit()` as an atomic
update of the in-memory store.  Long-running crew execution is opaque: the
worker observes only its outcome (`CrewOutcome`).
-/

/-- Lifecycle states of an `AnalysisRequest` (`database.py`, the `status`
column: pending, processing, completed, failed). -/
inductive JobState where
  | pending
  | processing
  | completed
  | failed
deriving DecidableEq, Repr

/-- One row of the `analysis_requests` table (`database.py`, class
`AnalysisRequest`).  The `request_id` key is held outside the record, in the
association list of the store. -/
structure JobRecord where
  query : String
  filename : String
  fileSize : Nat
  status : JobState
  createdAt : Nat
  startedAt : Option Nat
  completedAt : Option Nat
  errorMessage : Option String
deriving DecidableEq, Repr

/-- One row of the `analysis_results` table (`database.py`, class
`AnalysisResult`). -/
structure ResultRecord where
  analysisText : String
  processingTime : Nat
deriving DecidableEq, Repr

/-- The durable store: both tables.  Keys (`request_id`) are the first
components; uniqueness of keys is maintained by the operations (uuid4
freshness for requests, the UNIQUE constraint for results). -/
structure DB where
  requests : List (Nat × JobRecord)
  results : List (Nat × ResultRecord)
deriving DecidableEq, Repr

/-- First row matching a key — models
`db.query(T).filter(T.request_id == id).first()`. -/
def lookAL {α : Type} : List (Nat × α) → Nat → Option α
  | [], _ => none
  | p :: t, id => if p.1 = id then some p.2 else lookAL t id

/-- Point update of the row with the given key (SQLAlchemy attribute
assignment on the fetched ORM object followed by commit). -/
def updAL {α : Type} (l : List (Nat × α)) (id : Nat) (f : α → α) : List (Nat × α) :=
  l.map fun p => if p.1 = id then (p.1, f p.2) else p

/-- Number of rows with the given key. -/
def countAL {α : Type} : List (Nat × α) → Nat → Nat
  | [], _ => 0
  | p :: t, id => (if p.1 = id then 1 else 0) + countAL t id

def lookupReq (db : DB) (id : Nat) : Option JobRecord :=
  lookAL db.requests id

def lookupRes (db : DB) (id : Nat) : Option ResultRecord :=
  lookAL db.results id

/-- Status of a request row, if present. -/
def statusOf (db : DB) (id : Nat) : Option JobState :=
  (lookupReq db id).map JobRecord.status

def updateReq (db : DB) (id : Nat) (f : JobRecord → JobRecord) : DB :=
  { db with requests := updAL db.requests id f }

/-- Python `s.endswith(suffix)`. -/
def strEndsWith (s suffix : String) : Bool :=
  suffix.toList.isSuffixOf s.toList

/-- Python `s.strip()`: remove leading and trailing whitespace. -/
def trimStr (s : String) : String :=
  String.mk (((s.toList.dropWhile Char.isWhitespace).reverse.dropWhile
    Char.isWhitespace).reverse)

/-- Python `s.lower()`. -/
def lowerStr (s : String) : String :=
  String.mk (s.toList.map Char.toLower)

/-- Default analysis query (`main_async.py` line 82 / `main.py` line 113). -/
def defaultQuery : String :=
  "Provide a comprehensive financial analysis of this document"

/-- Query cleaning (`main_async.py` lines 129–132, identical logic in
`main.py` lines 157–161): a missing form field receives the framework
default; `if not query or query.strip() == ""` replaces empty or
whitespace-only queries by the default; the kept query is stripped. -/
def cleanQueryOpt (q : Option String) : String :=
  match q with
  | none => defaultQuery
  | some s => if s = "" ∨ trimStr s = "" then defaultQuery else trimStr s

/-- The record persisted by `analyze_document_async` (`main_async.py`
lines 134–143): state pending, no timestamps beyond creation, no error. -/
def submittedRecord (fn : String) (sz : Nat) (q : Option String) (now : Nat) : JobRecord :=
  { query := cleanQueryOpt q
    filename := fn
    fileSize := sz
    status := JobState.pending
    createdAt := now
    startedAt := none
    completedAt := none
    errorMessage := none }

/-- Store after a successful submission commit. -/
def submittedDB (db : DB) (id : Nat) (fn : String) (sz : Nat) (q : Option String) (now : Nat) : DB :=
  { db with requests := db.requests ++ [(id, submittedRecord fn sz q now)] }

/-- Submission-time client errors (both map to HTTP 400 in
`analyze_document_async`). -/
inductive SubmitErr where
  | unsupportedFormat
  | emptyPayload
deriving DecidableEq, Repr

/-- `analyze_document_async` (`main_async.py` lines 104–169) up to the
enqueue: reject non-PDF filenames (line 105), reject a zero-length saved
payload (line 126) — both before any database write — otherwise commit the
pending record and return the fresh request id.  The enqueue hands the job
to the background substrate without invoking it. -/
def submitAsync (db : DB) (id : Nat) (fn : String) (sz : Nat)
    (q : Option String) (now : Nat) : Except SubmitErr (DB × Nat) :=
  if strEndsWith fn ".pdf" = false then Except.error SubmitErr.unsupportedFormat
  else if sz = 0 then Except.error SubmitErr.emptyPayload
  else Except.ok (submittedDB db id fn sz q now, id)

/-- Projection returned by `get_analysis_status` (`main_async.py`
lines 186–222); `none` models the 404 response. -/
structure StatusView where
  requestId : Nat
  status : JobState
  filename : String
  query : String
  startedAt : Option Nat
  completedAt : Option Nat
  errorMessage : Option String
deriving DecidableEq, Repr

/-- `get_analysis_status`: a pure read.  The error field is included only
for failed requests (line 216). -/
def getStatus (db : DB) (id : Nat) : Option StatusView :=
  (lookupReq db id).map fun r =>
    { requestId := id
      status := r.status
      filename := r.filename
      query := r.query
      startedAt := r.startedAt
      completedAt := r.completedAt
      errorMessage := if r.status = JobState.failed then r.errorMessage else none }

/-- Outcome of one crew invocation as observed by the worker
(`worker.py` line 83: `financial_crew.kickoff`): either the stringified
result or a raised exception's message. -/
inductive CrewOutcome where
  | success (text : String)
  | failure (msg : String)
deriving DecidableEq, Repr

/-- Error message produced when the UNIQUE constraint on
`analysis_results.request_id` rejects a duplicate result insert. -/
def uniqueViolationMsg : String :=
  "IntegrityError: UNIQUE constraint failed: analysis_results.request_id"

/-- Mutation applied by the claim phase (`worker.py` lines 63–64):
`request.status = "processing"; request.started_at = now`. -/
def claimUpd (t : Nat) (r : JobRecord) : JobRecord :=
  { r with status := JobState.processing, startedAt := some t }

/-- Mutation applied on success (`worker.py` lines 97–99):
`request.status = "completed"; request.completed_at = now`. -/
def completeUpd (t : Nat) (r : JobRecord) : JobRecord :=
  { r with status := JobState.completed, completedAt := some t }

/-- Mutation applied by the exception handler (`worker.py` lines 116–119):
`request.status = "failed"; request.error_message = str(e);
request.completed_at = now`. -/
def failUpd (msg : String) (t : Nat) (r : JobRecord) : JobRecord :=
  { r with status := JobState.failed
           errorMessage := some msg
           completedAt := some t }

/-- Insertion of an `AnalysisResult` row (`worker.py` lines 89–94). -/
def addResult (db : DB) (id : Nat) (text : String) (dur : Nat) : DB :=
  { db with results := db.results ++ [(id, { analysisText := text, processingTime := dur })] }

/-- Claim phase of `process_financial_document` (`worker.py` lines 56–65):
fetch the request row by id; if present — whatever its current status —
set status to processing and stamp `started_at`, then commit.  If absent,
nothing is written (the code has no Pending check and does not abort). -/
def workerClaim (db : DB) (id : Nat) (t : Nat) : DB :=
  match lookupReq db id with
  | none => db
  | some _ => updateReq db id (claimUpd t)

/-- Completion phase of `process_financial_document` (`worker.py`
lines 83–122), applied to the state after the claim commit.
On crew success (lines 88–101) the result row insert and the
completed-status update are committed together; if a result row for the id
already exists, the UNIQUE constraint rejects the combined commit (neither
change persists) and the exception handler (lines 112–120) records the
failure on the request row.  The insert happens even when the request row
is absent (the code only guards the status update with `if request:`),
leaving an orphan result.  On crew failure the handler sets status failed,
`error_message` and `completed_at` when the request row exists, and writes
nothing otherwise. -/
def workerFinish (db : DB) (id : Nat) (o : CrewOutcome) (dur : Nat) (t : Nat) : DB :=
  match o with
  | CrewOutcome.success text =>
    match lookupRes db id with
    | some _ =>
      match lookupReq db id with
      | none => db
      | some _ => updateReq db id (failUpd uniqueViolationMsg t)
    | none =>
      match lookupReq db id with
      | none => addResult db id text dur
      | some _ => updateReq (addResult db id text dur) id (completeUpd t)
  | CrewOutcome.failure msg =>
    match lookupReq db id with
    | none => db
    | some _ => updateReq db id (failUpd msg t)

/-- Responses of `get_analysis_result` (`main_async.py` lines 225–274). -/
inductive ResultResponse where
  | notFound
  | pendingResp
  | processingResp
  | jobFailed (msg : Option String)
  | resultNotFound
  | ok (text : String) (dur : Nat)
deriving DecidableEq, Repr

/-- `get_analysis_result`: a pure read over both tables.  404 when the
request is unknown, 202 while pending or processing, 500 carrying the
stored `error_message` when failed, otherwise the result row (404
"Result not found" if — unreachable under the worker's atomic commit —
the row is missing). -/
def getResult (db : DB) (id : Nat) : ResultResponse :=
  match lookupReq db id with
  | none => ResultResponse.notFound
  | some r =>
    if r.status = JobState.pending then ResultResponse.pendingResp
    else if r.status = JobState.processing then ResultResponse.processingResp
    else if r.status = JobState.failed then ResultResponse.jobFailed r.errorMessage
    else
      match lookupRes db id with
      | none => ResultResponse.resultNotFound
      | some res => ResultResponse.ok res.analysisText res.processingTime

/-- Bool test: does `needle` occur as a contiguous substring of `hay`? -/
def containsSub (needle : List Char) : List Char → Bool
  | [] => needle.isEmpty
  | c :: t => needle.isPrefixOf (c :: t) || containsSub needle t

/-- Rate-limit classification (`main.py` lines 69–72):
`"rate_limit" in error_msg or "rate limit" in error_msg` on the lowercased
exception text. -/
def isRateLimitMsg (msg : String) : Bool :=
  let m := (lowerStr msg).toList
  containsSub ("rate_limit".toList) m || containsSub ("rate limit".toList) m

/-- Detail string of the HTTP 429 raised when the retry budget is
exhausted (`main.py` lines 80–83). -/
def rateLimitDetail : String :=
  "Rate limit exceeded. Please wait 60 seconds and try again. Groq free tier has strict limits."

/-- Terminal outcomes of `run_financial_crew_with_retry`. -/
inductive RetryErr where
  | http429 (detail : String)
  | reraised (msg : String)
  | http500
deriving DecidableEq, Repr

/-- Observable outcome of the retry loop: number of crew invocations,
total backoff slept, and the final result. -/
structure RetryOutcome where
  invocations : Nat
  totalSleep : Nat
  result : Except RetryErr String
deriving Repr

/-- The `for attempt in range(max_retries)` loop of
`run_financial_crew_with_retry` (`main.py` lines 41–90), with the crew
attempt modelled as a function from the attempt index to its outcome.
A rate-limit failure with budget remaining (`attempt < max_retries - 1`)
sleeps `15 * (attempt + 1)` and continues; with the budget exhausted it
raises HTTP 429; any other failure is re-raised immediately.  Falling out
of the loop raises HTTP 500 (line 90). -/
def runRetryAux (att : Nat → Except String String) (maxRetries : Nat) :
    Nat → Nat → Nat → Nat → RetryOutcome
  | 0, _, inv, slept => ⟨inv, slept, Except.error RetryErr.http500⟩
  | remaining + 1, attempt, inv, slept =>
    match att attempt with
    | Except.ok text => ⟨inv + 1, slept, Except.ok text⟩
    | Except.error e =>
      if isRateLimitMsg e then
        if attempt < maxRetries - 1 then
          runRetryAux att maxRetries remaining (attempt + 1) (inv + 1)
            (slept + 15 * (attempt + 1))
        else ⟨inv + 1, slept, Except.error (RetryErr.http429 rateLimitDetail)⟩
      else ⟨inv + 1, slept, Except.error (RetryErr.reraised e)⟩

/-- `run_financial_crew_with_retry(query, file_path, max_retries)`. -/
def runFinancialCrewWithRetry (att : Nat → Except String String)
    (maxRetries : Nat) : RetryOutcome :=
  runRetryAux att maxRetries maxRetries 0 0 0

/-- Replacement of `"\n\n"` by `"\n"` (`tools.py` line 34), left to right
without overlap, as Python `str.replace`. -/
def replaceNN : List Char → List Char
  | [] => []
  | [c] => [c]
  | a :: b :: t =>
    if a = '\n' ∧ b = '\n' then '\n' :: replaceNN t
    else a :: replaceNN (b :: t)

/-- The page loop of `read_financial_document` (`tools.py` lines 30–39):
per page, a falsy extraction contributes nothing, otherwise the cleaned
text plus a newline is appended; after each page the loop breaks once the
accumulated length reaches `max_chars`. -/
def buildReport (maxChars : Nat) : List String → String → String
  | [], acc => acc
  | p :: rest, acc =>
    let acc' := if p = "" then acc else acc ++ String.mk (replaceNN p.toList) ++ "\n"
    if maxChars ≤ acc'.length then acc' else buildReport maxChars rest acc'

/-- Truncation notice appended when the report exceeds `max_chars`
(`tools.py` line 44). -/
def truncNotice : String :=
  "\n\n[Note: Document truncated to fit token limits. Analysis based on first portion of document.]"

/-- What the filesystem and PDF parser present to
`read_financial_document`: no file at the path, a parse failure raising an
exception with a message, or the per-page `extract_text` outputs (with ""
standing for a falsy extraction). -/
inductive FsEntry where
  | absent
  | corrupt (msg : String)
  | pdf (pages : List String)
deriving DecidableEq, Repr

/-- `read_financial_document` (`tools.py` lines 13–49): total — every
path returns a string.  Missing file, parse exception and empty extraction
each yield their error string; otherwise the (possibly truncated) report. -/
def readFinancialDocument (e : FsEntry) (path : String) (maxChars : Nat) : String :=
  match e with
  | FsEntry.absent => "Error: File not found at " ++ path
  | FsEntry.corrupt msg => "Error reading PDF: " ++ msg
  | FsEntry.pdf pages =>
    let full := buildReport maxChars pages ""
    let full := if maxChars < full.length then full.take maxChars ++ truncNotice else full
    if full = "" then "Error: No text content extracted from PDF" else full

theorem lookAL_updAL_self {α : Type} (l : List (Nat × α)) (id : Nat) (f : α → α) :
    lookAL (updAL l id f) id = (lookAL l id).map f := by
  induction l with
  | nil => rfl
  | cons p t ih =>
    by_cases h : p.1 = id
    · simp [updAL, lookAL, h]
    · simpa [updAL, lookAL, h] using ih

theorem lookAL_updAL_ne {α : Type} (l : List (Nat × α)) {id j : Nat} (f : α → α)
    (hne : j ≠ id) : lookAL (updAL l id f) j = lookAL l j := by
  have hid : ¬ id = j := fun hc => hne hc.symm
  induction l with
  | nil => rfl
  | cons p t ih =>
    by_cases h : p.1 = id
    · simpa [updAL, lookAL, h, hid] using ih
    · by_cases h2 : p.1 = j
      · simp [updAL, lookAL, h, h2, hne]
      · simpa [updAL, lookAL, h, h2] using ih

theorem lookAL_append_self {α : Type} {l : List (Nat × α)} {id : Nat} (x : α)
    (h : lookAL l id = none) : lookAL (l ++ [(id, x)]) id = some x := by
  induction l with
  | nil => simp [lookAL]
  | cons p t ih =>
    by_cases hp : p.1 = id
    · simp [lookAL, hp] at h
    · simp [lookAL, hp] at h ⊢
      exact ih h

theorem lookAL_append_ne {α : Type} (l : List (Nat × α)) {id j : Nat} (x : α)
    (hne : j ≠ id) : lookAL (l ++ [(id, x)]) j = lookAL l j := by
  have hid : ¬ id = j := fun hc => hne hc.symm
  induction l with
  | nil => simp [lookAL, hid]
  | cons p t ih =>
    by_cases hp : p.1 = j
    · simp [lookAL, hp]
    · simpa [lookAL, hp] using ih

theorem countAL_append {α : Type} (l : List (Nat × α)) (id j : Nat) (x : α) :
    countAL (l ++ [(id, x)]) j = countAL l j + (if id = j then 1 else 0) := by
  induction l with
  | nil => simp [countAL]
  | cons p t ih =>
    simp [countAL, ih]
    omega

theorem countAL_eq_zero_iff {α : Type} (l : List (Nat × α)) (id : Nat) :
    countAL l id = 0 ↔ lookAL l id = none := by
  induction l with
  | nil => simp [countAL, lookAL]
  | cons p t ih =>
    by_cases hp : p.1 = id
    · simp [countAL, lookAL, hp]
    · simp [countAL, lookAL, hp, ih]

theorem lookupReq_updateReq_self (db : DB) (id : Nat) (f : JobRecord → JobRecord) :
    lookupReq (updateReq db id f) id = (lookupReq db id).map f :=
  lookAL_updAL_self db.requests id f

theorem lookupReq_updateReq_ne (db : DB) {id j : Nat} (f : JobRecord → JobRecord)
    (hne : j ≠ id) : lookupReq (updateReq db id f) j = lookupReq db j :=
  lookAL_updAL_ne db.requests f hne

theorem results_updateReq (db : DB) (id : Nat) (f : JobRecord → JobRecord) :
    (updateReq db id f).results = db.results := rfl

theorem lookupReq_addResult (db : DB) (id j : Nat) (text : String) (dur : Nat) :
    lookupReq (addResult db id text dur) j = lookupReq db j := rfl

theorem results_addResult (db : DB) (id : Nat) (text : String) (dur : Nat) :
    (addResult db id text dur).results
      = db.results ++ [(id, { analysisText := text, processingTime := dur })] := rfl

theorem workerClaim_none {db : DB} {id : Nat} (t : Nat)
    (h : lookupReq db id = none) : workerClaim db id t = db := by
  simp [workerClaim, h]

theorem workerClaim_some {db : DB} {id : Nat} {r : JobRecord} (t : Nat)
    (h : lookupReq db id = some r) :
    workerClaim db id t = updateReq db id (claimUpd t) := by
  simp [workerClaim, h]

theorem workerFinish_success_dup_none {db : DB} {id : Nat} {x : ResultRecord}
    {text : String} (dur t : Nat)
    (hres : lookupRes db id = some x) (hreq : lookupReq db id = none) :
    workerFinish db id (CrewOutcome.success text) dur t = db := by
  simp [workerFinish, hres, hreq]

theorem workerFinish_success_dup_some {db : DB} {id : Nat} {x : ResultRecord}
    {r : JobRecord} {text : String} (dur t : Nat)
    (hres : lookupRes db id = some x) (hreq : lookupReq db id = some r) :
    workerFinish db id (CrewOutcome.success text) dur t
      = updateReq db id (failUpd uniqueViolationMsg t) := by
  simp [workerFinish, hres, hreq]

theorem workerFinish_success_new_none {db : DB} {id : Nat} {text : String}
    (dur t : Nat)
    (hres : lookupRes db id = none) (hreq : lookupReq db id = none) :
    workerFinish db id (CrewOutcome.success text) dur t = addResult db id text dur := by
  simp [workerFinish, hres, hreq]

theorem workerFinish_success_new_some {db : DB} {id : Nat} {r : JobRecord}
    {text : String} (dur t : Nat)
    (hres : lookupRes db id = none) (hreq : lookupReq db id = some r) :
    workerFinish db id (CrewOutcome.success text) dur t
      = updateReq (addResult db id text dur) id (completeUpd t) := by
  simp [workerFinish, hres, hreq]

theorem workerFinish_failure_none {db : DB} {id : Nat} {msg : String} (dur t : Nat)
    (hreq : lookupReq db id = none) :
    workerFinish db id (CrewOutcome.failure msg) dur t = db := by
  simp [workerFinish, hreq]

theorem workerFinish_failure_some {db : DB} {id : Nat} {r : JobRecord} {msg : String}
    (dur t : Nat) (hreq : lookupReq db id = some r) :
    workerFinish db id (CrewOutcome.failure msg) dur t
      = updateReq db id (failUpd msg t) := by
  simp [workerFinish, hreq]

theorem submitAsync_ok {db db' : DB} {id jid : Nat} {fn : String} {sz : Nat}
    {q : Option String} {now : Nat}
    (h : submitAsync db id fn sz q now = Except.ok (db', jid)) :
    db' = submittedDB db id fn sz q now ∧ jid = id ∧
      strEndsWith fn ".pdf" = true ∧ sz ≠ 0 := by
  unfold submitAsync at h
  by_cases hf : strEndsWith fn ".pdf" = false
  · rw [if_pos hf] at h
    exact absurd h (by simp)
  · rw [if_neg hf] at h
    by_cases hs : sz = 0
    · rw [if_pos hs] at h
      exact absurd h (by simp)
    · rw [if_neg hs] at h
      simp only [Except.ok.injEq, Prod.mk.injEq] at h
      exact ⟨h.1.symm, h.2.symm, by simpa using hf, hs⟩

/-- States of the two stores reachable through the code's own operations:
the empty initial store, each successful submission commit (with a fresh
uuid), and each commit of the worker — claim phase and completion phase.
The worker steps carry no state guard: nothing in
`process_financial_document` checks the job's state before writing, the
queue may deliver a job more than once, and the code itself handles the
record-not-found case by continuing (`if request:`), so any id may be
presented to either phase. -/
inductive Reachable : DB → Prop where
  | init : Reachable { requests := [], results := [] }
  | submit {db db' : DB} {id jid : Nat} {fn : String} {sz : Nat}
      {q : Option String} {now : Nat} :
      Reachable db → lookupReq db id = none →
      submitAsync db id fn sz q now = Except.ok (db', jid) → Reachable db'
  | claim {db : DB} {id t : Nat} : Reachable db → Reachable (workerClaim db id t)
  | finish {db : DB} {id : Nat} {o : CrewOutcome} {dur t : Nat} :
      Reachable db → Reachable (workerFinish db id o dur t)

/-- Single-delivery discipline: the traces in which each job is claimed
only while Pending and finished only while Processing — what the spec's
worker protocol (its step 1 Pending check) would enforce.  The code does
not enforce these guards; the relation carves out the traces in which
they happen to hold. -/
inductive Reachable1 : DB → Prop where
  | init : Reachable1 { requests := [], results := [] }
  | submit {db db' : DB} {id jid : Nat} {fn : String} {sz : Nat}
      {q : Option String} {now : Nat} :
      Reachable1 db → lookupReq db id = none →
      submitAsync db id fn sz q now = Except.ok (db', jid) → Reachable1 db'
  | claim {db : DB} {id t : Nat} :
      Reachable1 db → statusOf db id = some JobState.pending →
      Reachable1 (workerClaim db id t)
  | finish {db : DB} {id : Nat} {o : CrewOutcome} {dur t : Nat} :
      Reachable1 db → statusOf db id = some JobState.processing →
      Reachable1 (workerFinish db id o dur t)

/-- Result-side invariant: at most one result row per id, and a Completed
request always has exactly one result row. -/
def resultInv (db : DB) : Prop :=
  ∀ id : Nat, countAL db.results id ≤ 1 ∧
    (statusOf db id = some JobState.completed → countAL db.results id = 1)

theorem reachable_resultInv {db : DB} (h : Reachable db) : resultInv db := by
  induction h with
  | init =>
    intro j
    exact ⟨by simp [countAL], by simp [statusOf, lookupReq, lookAL]⟩
  | @submit db0 db1 id jid fn sz q now hR hnone hok ih =>
    obtain ⟨hdb', _, _, _⟩ := submitAsync_ok hok
    subst hdb'
    intro j
    refine ⟨(ih j).1, ?_⟩
    by_cases hj : j = id
    · subst hj
      intro hc
      rw [statusOf, lookupReq] at hc
      rw [show (submittedDB db0 j fn sz q now).requests
            = db0.requests ++ [(j, submittedRecord fn sz q now)] from rfl] at hc
      rw [lookAL_append_self _ hnone] at hc
      simp [submittedRecord] at hc
    · intro hc
      rw [statusOf, lookupReq] at hc
      rw [show (submittedDB db0 id fn sz q now).requests
            = db0.requests ++ [(id, submittedRecord fn sz q now)] from rfl] at hc
      rw [lookAL_append_ne _ _ hj] at hc
      exact (ih j).2 hc
  | @claim db0 id t hR ih =>
    cases hl : lookupReq db0 id with
    | none => rw [workerClaim_none t hl]; exact ih
    | some r =>
      rw [workerClaim_some t hl]
      intro j
      refine ⟨(ih j).1, ?_⟩
      by_cases hj : j = id
      · subst hj
        intro hc
        rw [statusOf, lookupReq_updateReq_self, hl] at hc
        simp [claimUpd] at hc
      · intro hc
        rw [statusOf, lookupReq_updateReq_ne _ _ hj] at hc
        exact (ih j).2 hc
  | @finish db0 id o dur t hR ih =>
    cases o with
    | success text =>
      cases hres : lookupRes db0 id with
      | some x =>
        cases hl : lookupReq db0 id with
        | none => rw [workerFinish_success_dup_none dur t hres hl]; exact ih
        | some r =>
          rw [workerFinish_success_dup_some dur t hres hl]
          intro j
          refine ⟨(ih j).1, ?_⟩
          by_cases hj : j = id
          · subst hj
            intro hc
            rw [statusOf, lookupReq_updateReq_self, hl] at hc
            simp [failUpd] at hc
          · intro hc
            rw [statusOf, lookupReq_updateReq_ne _ _ hj] at hc
            exact (ih j).2 hc
      | none =>
        have hres0 : countAL db0.results id = 0 :=
          (countAL_eq_zero_iff db0.results id).mpr hres
        cases hl : lookupReq db0 id with
        | none =>
          rw [workerFinish_success_new_none dur t hres hl]
          intro j
          constructor
          · rw [results_addResult, countAL_append]
            by_cases hj : id = j
            · subst hj
              rw [hres0]; simp
            · simpa [hj] using (ih j).1
          · intro hc
            rw [statusOf, lookupReq_addResult] at hc
            rw [results_addResult, countAL_append]
            by_cases hj : id = j
            · subst hj
              rw [hres0]; simp
            · rw [if_neg hj]
              simpa using (ih j).2 hc
        | some r =>
          rw [workerFinish_success_new_some dur t hres hl]
          intro j
          constructor
          · rw [results_updateReq, results_addResult, countAL_append]
            by_cases hj : id = j
            · subst hj
              rw [hres0]; simp
            · simpa [hj] using (ih j).1
          · intro hc
            rw [results_updateReq, results_addResult, countAL_append]
            by_cases hj : id = j
            · subst hj
              rw [hres0]; simp
            · rw [if_neg hj]
              have hj' : j ≠ id := fun hc' => hj hc'.symm
              rw [statusOf, lookupReq_updateReq_ne _ _ hj', lookupReq_addResult] at hc
              simpa using (ih j).2 hc
    | failure msg =>
      cases hl : lookupReq db0 id with
      | none => rw [workerFinish_failure_none dur t hl]; exact ih
      | some r =>
        rw [workerFinish_failure_some dur t hl]
        intro j
        refine ⟨(ih j).1, ?_⟩
        by_cases hj : j = id
        · subst hj
          intro hc
          rw [statusOf, lookupReq_updateReq_self, hl] at hc
          simp [failUpd] at hc
        · intro hc
          rw [statusOf, lookupReq_updateReq_ne _ _ hj] at hc
          exact (ih j).2 hc

theorem eq_none_of_iff_false {α : Type} {o : Option α} {P : Prop}
    (h : o.isSome = true ↔ P) (hP : ¬ P) : o = none := by
  cases o with
  | none => rfl
  | some v => exact absurd (h.mp rfl) hP

theorem statusOf_some {db : DB} {id : Nat} {s : JobState}
    (h : statusOf db id = some s) :
    ∃ r, lookupReq db id = some r ∧ r.status = s := by
  cases hl : lookupReq db id with
  | none => rw [statusOf, hl] at h; cases h
  | some r => rw [statusOf, hl] at h; exact ⟨r, rfl, Option.some.inj h⟩

/-- Field invariant of a request row: `started_at` set iff the state has
left Pending, `completed_at` set iff the state is terminal,
`error_message` set iff the state is Failed. -/
def fieldInv (r : JobRecord) : Prop :=
  (r.startedAt.isSome = true ↔
    (r.status = JobState.processing ∨ r.status = JobState.completed ∨
      r.status = JobState.failed)) ∧
  (r.completedAt.isSome = true ↔
    (r.status = JobState.completed ∨ r.status = JobState.failed)) ∧
  (r.errorMessage.isSome = true ↔ r.status = JobState.failed)

theorem reachable1_fieldInv {db : DB} (h : Reachable1 db) :
    ∀ id r, lookupReq db id = some r → fieldInv r := by
  induction h with
  | init =>
    intro j r hr
    simp [lookupReq, lookAL] at hr
  | @submit db0 db1 id jid fn sz q now hR hnone hok ih =>
    obtain ⟨hdb', _, _, _⟩ := submitAsync_ok hok
    subst hdb'
    intro j r hr
    by_cases hj : j = id
    · subst hj
      rw [lookupReq] at hr
      rw [show (submittedDB db0 j fn sz q now).requests
            = db0.requests ++ [(j, submittedRecord fn sz q now)] from rfl] at hr
      rw [lookAL_append_self _ hnone] at hr
      obtain rfl := (Option.some.inj hr).symm
      simp [fieldInv, submittedRecord]
    · rw [lookupReq] at hr
      rw [show (submittedDB db0 id fn sz q now).requests
            = db0.requests ++ [(id, submittedRecord fn sz q now)] from rfl] at hr
      rw [lookAL_append_ne _ _ hj] at hr
      exact ih j r hr
  | @claim db0 id t hR hpend ih =>
    obtain ⟨r0, hl, hstat⟩ := statusOf_some hpend
    rw [workerClaim_some t hl]
    intro j r hr
    by_cases hj : j = id
    · subst hj
      rw [lookupReq_updateReq_self, hl] at hr
      obtain rfl := (Option.some.inj hr).symm
      obtain ⟨h1, h2, h3⟩ := ih j r0 hl
      have hc : r0.completedAt = none := eq_none_of_iff_false h2 (by rw [hstat]; simp)
      have he : r0.errorMessage = none := eq_none_of_iff_false h3 (by rw [hstat]; simp)
      simp [fieldInv, claimUpd, hc, he]
    · rw [lookupReq_updateReq_ne _ _ hj] at hr
      exact ih j r hr
  | @finish db0 id o dur t hR hproc ih =>
    obtain ⟨r0, hl, hstat⟩ := statusOf_some hproc
    obtain ⟨h1, h2, h3⟩ := ih id r0 hl
    have hst : r0.startedAt.isSome = true := h1.mpr (Or.inl hstat)
    have hc : r0.completedAt = none := eq_none_of_iff_false h2 (by rw [hstat]; simp)
    have he : r0.errorMessage = none := eq_none_of_iff_false h3 (by rw [hstat]; simp)
    cases o with
    | success text =>
      cases hres : lookupRes db0 id with
      | some x =>
        rw [workerFinish_success_dup_some dur t hres hl]
        intro j r hr
        by_cases hj : j = id
        · subst hj
          rw [lookupReq_updateReq_self, hl] at hr
          obtain rfl := (Option.some.inj hr).symm
          simp [fieldInv, failUpd, hst]
        · rw [lookupReq_updateReq_ne _ _ hj] at hr
          exact ih j r hr
      | none =>
        rw [workerFinish_success_new_some dur t hres hl]
        intro j r hr
        by_cases hj : j = id
        · subst hj
          rw [lookupReq_updateReq_self, lookupReq_addResult, hl] at hr
          obtain rfl := (Option.some.inj hr).symm
          simp [fieldInv, completeUpd, hst, he]
        · rw [lookupReq_updateReq_ne _ _ hj, lookupReq_addResult] at hr
          exact ih j r hr
    | failure msg =>
      rw [workerFinish_failure_some dur t hl]
      intro j r hr
      by_cases hj : j = id
      · subst hj
        rw [lookupReq_updateReq_self, hl] at hr
        obtain rfl := (Option.some.inj hr).symm
        simp [fieldInv, failUpd, hst]
      · rw [lookupReq_updateReq_ne _ _ hj] at hr
        exact ih j r hr

theorem reachable_completed_result {db : DB} {id : Nat} (h : Reachable db)
    {r : JobRecord} (hr : lookupReq db id = some r)
    (hc : r.status = JobState.completed) :
    ∃ res, lookupRes db id = some res := by
  have h1 : countAL db.results id = 1 :=
    (reachable_resultInv h id).2 (by rw [statusOf, hr]; simp [hc])
  cases hres : lookupRes db id with
  | some res => exact ⟨res, rfl⟩
  | none =>
    have h0 : countAL db.results id = 0 := (countAL_eq_zero_iff _ _).mpr hres
    rw [h0] at h1
    exact absurd h1 (by decide)

/-- Rank of a state in the monotonic ordering
Pending → Processing → {Completed | Failed}. -/
def stateRank : JobState → Nat
  | JobState.pending => 0
  | JobState.processing => 1
  | JobState.completed => 2
  | JobState.failed => 2

theorem reachable_submitted {db : DB} (h : Reachable db) (id : Nat) (fn : String)
    (sz : Nat) (q : Option String) (now : Nat)
    (hnone : lookupReq db id = none) (hpdf : strEndsWith fn ".pdf" = true) (hsz : sz ≠ 0) :
    Reachable (submittedDB db id fn sz q now) := by
  refine @Reachable.submit db (submittedDB db id fn sz q now) id id fn sz q now h hnone ?_
  unfold submitAsync
  rw [if_neg (by simp [hpdf]), if_neg hsz]

theorem reachable1_submitted {db : DB} (h : Reachable1 db) (id : Nat) (fn : String)
    (sz : Nat) (q : Option String) (now : Nat)
    (hnone : lookupReq db id = none) (hpdf : strEndsWith fn ".pdf" = true) (hsz : sz ≠ 0) :
    Reachable1 (submittedDB db id fn sz q now) := by
  refine @Reachable1.submit db (submittedDB db id fn sz q now) id id fn sz q now h hnone ?_
  unfold submitAsync
  rw [if_neg (by simp [hpdf]), if_neg hsz]

/-- The empty initial store. -/
def dbEmpty : DB := { requests := [], results := [] }

/-- Record of job 0 right after submission. -/
def recPend : JobRecord := submittedRecord "report.pdf" 5 (some "  analyze cash flow  ") 0

/-- Record of job 0 after the worker's claim phase at time 1. -/
def recProc : JobRecord := claimUpd 1 recPend

/-- Record of job 0 after a successful completion at time 2. -/
def recDone : JobRecord := completeUpd 2 recProc

/-- Record of job 0 after a failed completion at time 2. -/
def recFail : JobRecord := failUpd "boom" 2 recProc

/-- Store holding the single pending job 0. -/
def dbPend : DB := submittedDB dbEmpty 0 "report.pdf" 5 (some "  analyze cash flow  ") 0

/-- Store after the worker claimed job 0. -/
def dbProc : DB := workerClaim dbPend 0 1

/-- Store after job 0 completed successfully. -/
def dbDone : DB := workerFinish dbProc 0 (CrewOutcome.success "the analysis") 7 2

/-- Store after job 0 failed. -/
def dbFail : DB := workerFinish dbProc 0 (CrewOutcome.failure "boom") 7 2

/-- Store after the queue delivered completed job 0 to a worker again
(the claim phase runs unguarded). -/
def dbReclaimDone : DB := workerClaim dbDone 0 9

/-- Store after the queue delivered failed job 0 to a worker again. -/
def dbReclaimFail : DB := workerClaim dbFail 0 9

/-- Store after the worker ran for id 3 although no request row exists
(`worker.py` handles `request is None` by still executing the crew and
inserting the result row). -/
def dbOrphan : DB := workerFinish dbEmpty 3 (CrewOutcome.success "orphan text") 4 1

theorem dbPend_reachable : Reachable dbPend :=
  reachable_submitted Reachable.init 0 "report.pdf" 5 (some "  analyze cash flow  ") 0
    rfl (by decide) (by decide)

theorem dbProc_reachable : Reachable dbProc := Reachable.claim dbPend_reachable

theorem dbDone_reachable : Reachable dbDone := Reachable.finish dbProc_reachable

theorem dbFail_reachable : Reachable dbFail := Reachable.finish dbProc_reachable

theorem dbPend_reachable1 : Reachable1 dbPend :=
  reachable1_submitted Reachable1.init 0 "report.pdf" 5 (some "  analyze cash flow  ") 0
    rfl (by decide) (by decide)

theorem dbProc_reachable1 : Reachable1 dbProc :=
  Reachable1.claim dbPend_reachable1 rfl

theorem dbDone_reachable1 : Reachable1 dbDone :=
  Reachable1.finish dbProc_reachable1 rfl

theorem dbFail_reachable1 : Reachable1 dbFail :=
  Reachable1.finish dbProc_reachable1 rfl

/-- C1: the claim is false as stated.  In the reachable store `dbOrphan`
(the worker was handed id 3 with no request row — `worker.py` handles
`request is None` by still executing the crew and committing the
`AnalysisResult` insert), a result row for id 3 exists although no job
with id 3 is in state Completed (none exists at all): the "no result row
for a job that is not Completed" direction fails. -/
theorem c1_counterexample :
    Reachable dbOrphan ∧ countAL dbOrphan.results 3 = 1 ∧
    lookupReq dbOrphan 3 = none :=
  ⟨Reachable.finish Reachable.init, rfl, rfl⟩

/-- C1 (amended): in every reachable state of the stores, a job in state
Completed has exactly one JobResult row with its id (this direction of the
claim holds: the insert and the Completed transition share one commit, and
the UNIQUE constraint keeps the count at one); but the converse fails —
a result row may exist for an id that has no Completed job (see the
counterexample). -/
theorem c1_theorem {db : DB} (h : Reachable db) (id : Nat) :
    (statusOf db id = some JobState.completed → countAL db.results id = 1) ∧
    countAL db.results id ≤ 1 :=
  ⟨(reachable_resultInv h id).2, (reachable_resultInv h id).1⟩

theorem c1_witness :
    statusOf dbDone 0 = some JobState.completed ∧
    countAL dbDone.results 0 = 1 :=
  ⟨rfl, (c1_theorem dbDone_reachable 0).1 rfl⟩

/-- C2: the claim is false as stated.  With an empty store (job 7 does not
exist), `process_financial_document` does not abort: it invokes the work
unit anyway and, on success, writes a result row — contradicting "aborts
this attempt without invoking the work unit and without writing any job or
result state". -/
theorem c2_counterexample :
    lookupReq dbEmpty 7 = none ∧
    workerFinish (workerClaim dbEmpty 7 0) 7 (CrewOutcome.success "analysis") 5 1
      = { requests := [],
          results := [(7, { analysisText := "analysis", processingTime := 5 })] } :=
  ⟨rfl, rfl⟩

/-- C2 (amended): when the runner picks up a job it transitions the
record to Processing and sets `started_at` — but for a record in ANY
state, not only Pending (the code never checks the state); and when the
record is not found it skips only the job-record writes, still invokes the
work unit, and on success persists an orphan result row. -/
theorem c2_theorem (db : DB) (id t : Nat) :
    (∀ r, lookupReq db id = some r →
       lookupReq (workerClaim db id t) id = some (claimUpd t r)) ∧
    (lookupReq db id = none →
       workerClaim db id t = db ∧
       ∀ text dur t2, lookupRes db id = none →
         workerFinish (workerClaim db id t) id (CrewOutcome.success text) dur t2
           = addResult db id text dur) := by
  constructor
  · intro r hr
    rw [workerClaim_some t hr, lookupReq_updateReq_self, hr]
    rfl
  · intro hnone
    refine ⟨workerClaim_none t hnone, ?_⟩
    intro text dur t2 hres
    rw [workerClaim_none t hnone, workerFinish_success_new_none dur t2 hres hnone]

theorem c2_witness :
    lookupReq (workerClaim dbFail 0 9) 0 = some (claimUpd 9 recFail) ∧
    workerClaim dbEmpty 7 3 = dbEmpty ∧
    workerFinish (workerClaim dbEmpty 7 3) 7 (CrewOutcome.success "txt") 5 4
      = addResult dbEmpty 7 "txt" 5 := by
  refine ⟨(c2_theorem dbFail 0 9).1 recFail rfl, ?_, ?_⟩
  · exact ((c2_theorem dbEmpty 7 3).2 rfl).1
  · exact ((c2_theorem dbEmpty 7 3).2 rfl).2 "txt" 5 4 rfl

/-- C3: the claim is false as stated.  `dbDone` is reachable with job 0
Completed; delivering job 0 to the worker again is a reachable step whose
claim phase moves the record back to Processing — a transition out of a
terminal state is applied, and no `InvalidTransition` failure exists
anywhere in the code (the store validates nothing). -/
theorem c3_counterexample :
    Reachable dbDone ∧ statusOf dbDone 0 = some JobState.completed ∧
    Reachable dbReclaimDone ∧
    statusOf dbReclaimDone 0 = some JobState.processing :=
  ⟨dbDone_reachable, rfl, Reachable.claim dbDone_reachable, rfl⟩

/-- C3 (amended): along the guarded worker protocol (claim only while
Pending, finish only while Processing) every job's state rank is
non-decreasing and terminal records are untouched — but the store itself
performs no validation: the claim phase moves a record in ANY state
(including Completed or Failed) to Processing, succeeding instead of
failing with `InvalidTransition`. -/
theorem c3_theorem :
    (∀ db id t j r r', statusOf db id = some JobState.pending →
       lookupReq db j = some r → lookupReq (workerClaim db id t) j = some r' →
       stateRank r.status ≤ stateRank r'.status ∧
         ((r.status = JobState.completed ∨ r.status = JobState.failed) → r' = r)) ∧
    (∀ db id o dur t j r r', statusOf db id = some JobState.processing →
       lookupReq db j = some r → lookupReq (workerFinish db id o dur t) j = some r' →
       stateRank r.status ≤ stateRank r'.status ∧
         ((r.status = JobState.completed ∨ r.status = JobState.failed) → r' = r)) ∧
    (∀ db id t r, lookupReq db id = some r →
       statusOf (workerClaim db id t) id = some JobState.processing) := by
  refine ⟨?_, ?_, ?_⟩
  · intro db id t j r r' hpend hr hr'
    obtain ⟨r0, hl, hstat⟩ := statusOf_some hpend
    rw [workerClaim_some t hl] at hr'
    by_cases hj : j = id
    · subst hj
      rw [hl] at hr
      obtain rfl := Option.some.inj hr
      rw [lookupReq_updateReq_self, hl] at hr'
      obtain rfl := (Option.some.inj hr').symm
      rw [hstat]
      exact ⟨by simp [stateRank, claimUpd], by simp⟩
    · rw [lookupReq_updateReq_ne _ _ hj, hr] at hr'
      obtain rfl := (Option.some.inj hr').symm
      exact ⟨le_refl _, fun _ => rfl⟩
  · intro db id o dur t j r r' hproc hr hr'
    obtain ⟨r0, hl, hstat⟩ := statusOf_some hproc
    cases o with
    | success text =>
      cases hres : lookupRes db id with
      | some x =>
        rw [workerFinish_success_dup_some dur t hres hl] at hr'
        by_cases hj : j = id
        · subst hj
          rw [hl] at hr
          obtain rfl := Option.some.inj hr
          rw [lookupReq_updateReq_self, hl] at hr'
          obtain rfl := (Option.some.inj hr').symm
          rw [hstat]
          exact ⟨by simp [stateRank, failUpd], by simp⟩
        · rw [lookupReq_updateReq_ne _ _ hj, hr] at hr'
          obtain rfl := (Option.some.inj hr').symm
          exact ⟨le_refl _, fun _ => rfl⟩
      | none =>
        rw [workerFinish_success_new_some dur t hres hl] at hr'
        by_cases hj : j = id
        · subst hj
          rw [hl] at hr
          obtain rfl := Option.some.inj hr
          rw [lookupReq_updateReq_self, lookupReq_addResult, hl] at hr'
          obtain rfl := (Option.some.inj hr').symm
          rw [hstat]
          exact ⟨by simp [stateRank, completeUpd], by simp⟩
        · rw [lookupReq_updateReq_ne _ _ hj, lookupReq_addResult, hr] at hr'
          obtain rfl := (Option.some.inj hr').symm
          exact ⟨le_refl _, fun _ => rfl⟩
    | failure msg =>
      rw [workerFinish_failure_some dur t hl] at hr'
      by_cases hj : j = id
      · subst hj
        rw [hl] at hr
        obtain rfl := Option.some.inj hr
        rw [lookupReq_updateReq_self, hl] at hr'
        obtain rfl := (Option.some.inj hr').symm
        rw [hstat]
        exact ⟨by simp [stateRank, failUpd], by simp⟩
      · rw [lookupReq_updateReq_ne _ _ hj, hr] at hr'
        obtain rfl := (Option.some.inj hr').symm
        exact ⟨le_refl _, fun _ => rfl⟩
  · intro db id t r hr
    rw [workerClaim_some t hr, statusOf, lookupReq_updateReq_self, hr]
    rfl

theorem c3_witness :
    stateRank recPend.status ≤ stateRank recProc.status ∧
    statusOf (workerClaim dbDone 0 9) 0 = some JobState.processing := by
  refine ⟨?_, c3_theorem.2.2 dbDone 0 9 recDone rfl⟩
  exact (c3_theorem.1 dbPend 0 1 0 recPend recProc rfl rfl rfl).1

theorem runRetryAux_step_ok {att : Nat → Except String String} {a : Nat} {text : String}
    (m n i s : Nat) (h : att a = Except.ok text) :
    runRetryAux att m (n + 1) a i s = ⟨i + 1, s, Except.ok text⟩ := by
  simp [runRetryAux, h]

theorem runRetryAux_step_rl_cont {att : Nat → Except String String} {a : Nat} {e : String}
    (m n i s : Nat) (h : att a = Except.error e) (hr : isRateLimitMsg e = true)
    (hlt : a < m - 1) :
    runRetryAux att m (n + 1) a i s
      = runRetryAux att m n (a + 1) (i + 1) (s + 15 * (a + 1)) := by
  simp [runRetryAux, h, hr, hlt]

theorem runRetryAux_step_rl_exhaust {att : Nat → Except String String} {a : Nat} {e : String}
    (m n i s : Nat) (h : att a = Except.error e) (hr : isRateLimitMsg e = true)
    (hge : ¬ a < m - 1) :
    runRetryAux att m (n + 1) a i s
      = ⟨i + 1, s, Except.error (RetryErr.http429 rateLimitDetail)⟩ := by
  simp [runRetryAux, h, hr, hge]

/-- C4: the claim is false as stated.  The Worker Runner
(`process_financial_document`) performs no retry at all: a single
transiently-classified failure ("rate limit reached" matches the code's
own rate-limit test) makes the job Failed after exactly one invocation —
not Completed after 3 invocations, and not still Processing awaiting a
re-attempt. -/
theorem c4_counterexample :
    isRateLimitMsg "rate limit reached" = true ∧
    Reachable (workerFinish dbProc 0 (CrewOutcome.failure "rate limit reached") 7 2) ∧
    statusOf (workerFinish dbProc 0 (CrewOutcome.failure "rate limit reached") 7 2) 0
      = some JobState.failed ∧
    (lookupReq (workerFinish dbProc 0 (CrewOutcome.failure "rate limit reached") 7 2) 0).map
        JobRecord.errorMessage = some (some "rate limit reached") :=
  ⟨by decide, Reachable.finish dbProc_reachable, rfl, rfl⟩

/-- C4 (amended): the retry-with-backoff behaviour lives only in the
synchronous path (`run_financial_crew_with_retry` in `main.py`), not in
the Worker Runner.  There: a work unit that fails with rate-limit errors
exactly twice then succeeds yields success after exactly 3 invocations
with total backoff 15·1 + 15·2; one that always fails with rate-limit
errors yields an HTTP 429 after exactly 3 invocations.  The async Worker
Runner invokes the crew once: any failure — transient or not — makes the
job Failed after that single invocation. -/
theorem c4_theorem :
    (∀ att : Nat → Except String String, ∀ e0 e1 text,
       att 0 = Except.error e0 → isRateLimitMsg e0 = true →
       att 1 = Except.error e1 → isRateLimitMsg e1 = true →
       att 2 = Except.ok text →
       runFinancialCrewWithRetry att 3
         = ⟨3, 15 * 1 + 15 * 2, Except.ok text⟩) ∧
    (∀ att : Nat → Except String String, ∀ e0 e1 e2,
       att 0 = Except.error e0 → isRateLimitMsg e0 = true →
       att 1 = Except.error e1 → isRateLimitMsg e1 = true →
       att 2 = Except.error e2 → isRateLimitMsg e2 = true →
       runFinancialCrewWithRetry att 3
         = ⟨3, 15 * 1 + 15 * 2, Except.error (RetryErr.http429 rateLimitDetail)⟩) ∧
    (∀ db id r msg dur t1 t2, lookupReq db id = some r →
       statusOf (workerFinish (workerClaim db id t1) id (CrewOutcome.failure msg) dur t2) id
         = some JobState.failed) := by
  refine ⟨?_, ?_, ?_⟩
  · intro att e0 e1 text h0 hr0 h1 hr1 h2
    show runRetryAux att 3 (2 + 1) 0 0 0 = _
    rw [runRetryAux_step_rl_cont 3 2 0 0 h0 hr0 (by norm_num)]
    rw [show (2 : Nat) = 1 + 1 from rfl]
    rw [runRetryAux_step_rl_cont 3 1 1 (0 + 15 * (0 + 1)) h1 hr1 (by norm_num)]
    rw [runRetryAux_step_ok 3 0 2 (0 + 15 * (0 + 1) + 15 * (1 + 1)) h2]
  · intro att e0 e1 e2 h0 hr0 h1 hr1 h2 hr2
    show runRetryAux att 3 (2 + 1) 0 0 0 = _
    rw [runRetryAux_step_rl_cont 3 2 0 0 h0 hr0 (by norm_num)]
    rw [show (2 : Nat) = 1 + 1 from rfl]
    rw [runRetryAux_step_rl_cont 3 1 1 (0 + 15 * (0 + 1)) h1 hr1 (by norm_num)]
    rw [show (1 : Nat) = 0 + 1 from rfl]
    rw [runRetryAux_step_rl_exhaust 3 0 2 (0 + 15 * (0 + 1) + 15 * (1 + 1)) h2 hr2
      (by norm_num)]
  · intro db id r msg dur t1 t2 hr
    have h1 : lookupReq (workerClaim db id t1) id = some (claimUpd t1 r) := by
      rw [workerClaim_some t1 hr, lookupReq_updateReq_self, hr]
      rfl
    rw [workerFinish_failure_some dur t2 h1, statusOf, lookupReq_updateReq_self, h1]
    rfl

/-- Work unit failing with a rate-limit error on attempts 0 and 1, then
succeeding. -/
def attTwoThenOk : Nat → Except String String :=
  fun n => if n < 2 then Except.error "rate limit reached" else Except.ok "done"

/-- Work unit always failing with a rate-limit error. -/
def attAlways : Nat → Except String String :=
  fun _ => Except.error "Groq rate_limit hit"

theorem c4_witness :
    runFinancialCrewWithRetry attTwoThenOk 3 = ⟨3, 15 * 1 + 15 * 2, Except.ok "done"⟩ ∧
    runFinancialCrewWithRetry attAlways 3
      = ⟨3, 15 * 1 + 15 * 2, Except.error (RetryErr.http429 rateLimitDetail)⟩ ∧
    statusOf (workerFinish (workerClaim dbPend 0 1) 0
        (CrewOutcome.failure "rate limit reached") 7 2) 0 = some JobState.failed := by
  refine ⟨?_, ?_, ?_⟩
  · exact c4_theorem.1 attTwoThenOk "rate limit reached" "rate limit reached" "done"
      rfl (by decide) rfl (by decide) rfl
  · exact c4_theorem.2.1 attAlways "Groq rate_limit hit" "Groq rate_limit hit"
      "Groq rate_limit hit" rfl (by decide) rfl (by decide) rfl (by decide)
  · exact c4_theorem.2.2 dbPend 0 recPend "rate limit reached" 7 1 2 rfl

/-- C5: confirmed.  A zero-length payload is rejected (HTTP 400 — the
`InvalidInput` class; `emptyPayload` when the filename passes the earlier
PDF check, `unsupportedFormat` when it does not) before any database
write, so no JobRequest is created and `get_status` for the attempted id
still answers NotFound. -/
theorem c5_theorem (db : DB) (id : Nat) (fn : String) (q : Option String) (now : Nat)
    (hfresh : lookupReq db id = none) :
    (strEndsWith fn ".pdf" = true →
       submitAsync db id fn 0 q now = Except.error SubmitErr.emptyPayload) ∧
    (strEndsWith fn ".pdf" = false →
       submitAsync db id fn 0 q now = Except.error SubmitErr.unsupportedFormat) ∧
    getStatus db id = none := by
  refine ⟨?_, ?_, ?_⟩
  · intro hpdf
    unfold submitAsync
    rw [if_neg (by simp [hpdf]), if_pos rfl]
  · intro hpdf
    unfold submitAsync
    rw [if_pos hpdf]
  · simp [getStatus, hfresh]

theorem c5_witness :
    submitAsync dbEmpty 1 "empty.pdf" 0 none 0 = Except.error SubmitErr.emptyPayload ∧
    getStatus dbEmpty 1 = none :=
  ⟨(c5_theorem dbEmpty 1 "empty.pdf" none 0 rfl).1 (by decide),
   (c5_theorem dbEmpty 1 "empty.pdf" none 0 rfl).2.2⟩

/-- C6: confirmed.  A valid submission returns the fresh id together with
the store in which the Pending record exists (the commit precedes the
return), `get_status` on that id immediately reports Pending with no
timestamps and no error, and the results table is untouched — submission
never invokes the work unit. -/
theorem c6_theorem (db : DB) (id : Nat) (fn : String) (sz : Nat) (q : Option String)
    (now : Nat) (hfresh : lookupReq db id = none)
    (hpdf : strEndsWith fn ".pdf" = true) (hsz : sz ≠ 0) :
    submitAsync db id fn sz q now = Except.ok (submittedDB db id fn sz q now, id) ∧
    getStatus (submittedDB db id fn sz q now) id
      = some { requestId := id
               status := JobState.pending
               filename := fn
               query := cleanQueryOpt q
               startedAt := none
               completedAt := none
               errorMessage := none } ∧
    (submittedDB db id fn sz q now).results = db.results := by
  refine ⟨?_, ?_, rfl⟩
  · unfold submitAsync
    rw [if_neg (by simp [hpdf]), if_neg hsz]
  · have hlook : lookupReq (submittedDB db id fn sz q now) id
        = some (submittedRecord fn sz q now) := by
      rw [lookupReq]
      rw [show (submittedDB db id fn sz q now).requests
            = db.requests ++ [(id, submittedRecord fn sz q now)] from rfl]
      exact lookAL_append_self _ hfresh
    simp [getStatus, hlook, submittedRecord]

theorem c6_witness :
    submitAsync dbEmpty 0 "report.pdf" 5 (some "  analyze cash flow  ") 0
      = Except.ok (dbPend, 0) ∧
    getStatus dbPend 0
      = some { requestId := 0
               status := JobState.pending
               filename := "report.pdf"
               query := cleanQueryOpt (some "  analyze cash flow  ")
               startedAt := none
               completedAt := none
               errorMessage := none } ∧
    dbPend.results = dbEmpty.results :=
  c6_theorem dbEmpty 0 "report.pdf" 5 (some "  analyze cash flow  ") 0
    rfl (by decide) (by decide)

/-- C7: confirmed.  `get_analysis_result` is a pure read (the model is a
function of the store that returns a response and no new store): unknown
id → NotFound; Pending and Processing → the two 202 not-ready signals
(neither an error nor data); Failed → JobFailed carrying the stored
`error_message`; Completed → the JobResult row, which exists in every
reachable store by the atomic completion commit. -/
theorem c7_theorem {db : DB} (h : Reachable db) (id : Nat) :
    (lookupReq db id = none → getResult db id = ResultResponse.notFound) ∧
    (∀ r, lookupReq db id = some r →
      (r.status = JobState.pending → getResult db id = ResultResponse.pendingResp) ∧
      (r.status = JobState.processing → getResult db id = ResultResponse.processingResp) ∧
      (r.status = JobState.failed → getResult db id = ResultResponse.jobFailed r.errorMessage) ∧
      (r.status = JobState.completed →
        ∃ res, lookupRes db id = some res ∧
          getResult db id = ResultResponse.ok res.analysisText res.processingTime)) := by
  constructor
  · intro hnone
    simp [getResult, hnone]
  · intro r hr
    refine ⟨?_, ?_, ?_, ?_⟩
    · intro hs
      simp [getResult, hr, hs]
    · intro hs
      simp [getResult, hr, hs]
    · intro hs
      simp [getResult, hr, hs]
    · intro hs
      obtain ⟨res, hres⟩ := reachable_completed_result h hr hs
      refine ⟨res, hres, ?_⟩
      simp [getResult, hr, hs, hres]

theorem c7_witness :
    getResult dbPend 0 = ResultResponse.pendingResp ∧
    getResult dbFail 0 = ResultResponse.jobFailed (some "boom") ∧
    getResult dbDone 0 = ResultResponse.ok "the analysis" 7 := by
  refine ⟨?_, ?_, ?_⟩
  · exact (((c7_theorem dbPend_reachable 0).2 recPend rfl).1) rfl
  · exact (((c7_theorem dbFail_reachable 0).2 recFail rfl).2.2.1) rfl
  · obtain ⟨res, hres, hok⟩ := ((c7_theorem dbDone_reachable 0).2 recDone rfl).2.2.2 rfl
    have h2 : lookupRes dbDone 0
        = some { analysisText := "the analysis", processingTime := 7 } := rfl
    have : res = { analysisText := "the analysis", processingTime := 7 } :=
      (Option.some.inj (h2.symm.trans hres)).symm
    rw [this] at hok
    exact hok

/-- C8: the claim is false as stated.  `dbReclaimFail` is reachable (job 0
failed, then the queue delivered it to a worker again and the unguarded
claim phase ran): its record is in state Processing while `error_message`
is still "boom" and `completed_at` is still set — violating both
"completed_at set iff terminal" and "error_message non-null iff Failed". -/
theorem c8_counterexample :
    Reachable dbReclaimFail ∧
    lookupReq dbReclaimFail 0 = some (claimUpd 9 recFail) ∧
    (claimUpd 9 recFail).status = JobState.processing ∧
    (claimUpd 9 recFail).errorMessage = some "boom" ∧
    (claimUpd 9 recFail).completedAt = some 2 :=
  ⟨Reachable.claim dbFail_reachable, rfl, rfl, rfl, rfl⟩

/-- C8 (amended): the three field invariants — `started_at` set iff the
state has left Pending, `completed_at` set iff the state is terminal,
`error_message` non-null iff the state is Failed — hold for every job
record in every store reachable under the single-delivery discipline
(each job claimed only while Pending, finished only while Processing).
The code does not enforce that discipline, and a re-delivered job breaks
the last two invariants (see the counterexample). -/
theorem c8_theorem {db : DB} (h : Reachable1 db) (id : Nat) (r : JobRecord)
    (hr : lookupReq db id = some r) :
    (r.startedAt.isSome = true ↔
      (r.status = JobState.processing ∨ r.status = JobState.completed ∨
        r.status = JobState.failed)) ∧
    (r.completedAt.isSome = true ↔
      (r.status = JobState.completed ∨ r.status = JobState.failed)) ∧
    (r.errorMessage.isSome = true ↔ r.status = JobState.failed) :=
  reachable1_fieldInv h id r hr

theorem c8_witness :
    recPend.startedAt.isSome = false ∧
    recFail.startedAt.isSome = true ∧
    recFail.completedAt.isSome = true ∧
    recFail.errorMessage.isSome = true := by
  have hp := c8_theorem dbPend_reachable1 0 recPend rfl
  have hf := c8_theorem dbFail_reachable1 0 recFail rfl
  refine ⟨?_, ?_, ?_, ?_⟩
  · cases hs : recPend.startedAt.isSome with
    | false => rfl
    | true => exact absurd (hp.1.mp hs) (by decide)
  · exact hf.1.mpr (Or.inr (Or.inr rfl))
  · exact hf.2.1.mpr (Or.inr rfl)
  · exact hf.2.2.mpr rfl

/-- C9: confirmed.  A missing query receives the framework default; an
empty or whitespace-only query is replaced by the default; any other
query is kept stripped of leading and trailing whitespace, and the
submitted record stores exactly this cleaned query (the same value is
passed to the enqueued job). -/
theorem c9_theorem :
    cleanQueryOpt none = defaultQuery ∧
    (∀ s : String, trimStr s = "" → cleanQueryOpt (some s) = defaultQuery) ∧
    (∀ s : String, trimStr s ≠ "" → cleanQueryOpt (some s) = trimStr s) ∧
    (∀ fn sz q now, (submittedRecord fn sz q now).query = cleanQueryOpt q) := by
  refine ⟨rfl, ?_, ?_, fun _ _ _ _ => rfl⟩
  · intro s hs
    simp [cleanQueryOpt, hs]
  · intro s hs
    have h0 : ¬ (s = "" ∨ trimStr s = "") := by
      rintro (rfl | h)
      · exact hs rfl
      · exact hs h
    simp [cleanQueryOpt, h0]

theorem c9_witness :
    cleanQueryOpt (some "   ") = defaultQuery ∧
    cleanQueryOpt (some "  analyze cash flow  ") = trimStr "  analyze cash flow  " ∧
    trimStr "  analyze cash flow  " = "analyze cash flow" :=
  ⟨c9_theorem.2.1 "   " (by decide),
   c9_theorem.2.2.1 "  analyze cash flow  " (by decide), by decide⟩

theorem buildReport_all_empty (maxChars : Nat) (pages : List String)
    (hall : ∀ p ∈ pages, p = "") : buildReport maxChars pages "" = "" := by
  induction pages with
  | nil => rfl
  | cons p rest ih =>
    have hp : p = "" := hall p (List.mem_cons_self p rest)
    have hrest : ∀ x ∈ rest, x = "" := fun x hx => hall x (List.mem_cons_of_mem p hx)
    simp only [buildReport, if_pos hp]
    by_cases hmc : maxChars ≤ ("" : String).length
    · rw [if_pos hmc]
    · rw [if_neg hmc]
      exact ih hrest

/-- C10: confirmed.  `read_financial_document` is total — the model maps
every filesystem situation to a string, never an exception: a missing
file yields "Error: File not found at {path}", a parse failure yields a
string beginning "Error reading PDF:", and a PDF whose pages all extract
to nothing yields "Error: No text content extracted from PDF". -/
theorem c10_theorem (path : String) (maxChars : Nat) (msg : String) (pages : List String) :
    readFinancialDocument FsEntry.absent path maxChars
      = "Error: File not found at " ++ path ∧
    readFinancialDocument (FsEntry.corrupt msg) path maxChars
      = "Error reading PDF: " ++ msg ∧
    ((∀ p ∈ pages, p = "") →
      readFinancialDocument (FsEntry.pdf pages) path maxChars
        = "Error: No text content extracted from PDF") := by
  refine ⟨rfl, rfl, ?_⟩
  intro hall
  simp only [readFinancialDocument, buildReport_all_empty maxChars pages hall]
  simp

theorem c10_witness :
    readFinancialDocument FsEntry.absent "data/sample.pdf" 30000
      = "Error: File not found at " ++ "data/sample.pdf" ∧
    readFinancialDocument (FsEntry.corrupt "bad xref table") "data/sample.pdf" 30000
      = "Error reading PDF: " ++ "bad xref table" ∧
    readFinancialDocument (FsEntry.pdf ["", ""]) "data/sample.pdf" 30000
      = "Error: No text content extracted from PDF" := by
  have h := c10_theorem "data/sample.pdf" 30000 "bad xref table" ["", ""]
  exact ⟨h.1, h.2.1, h.2.2 (by decide)⟩
